import Mathlib

/-!
Shallow embedding of the trunk asset-pipeline core: the `Chain` combinator,
the `CopyDir` pipeline, and the `parse_public_url` helper, together with
theorems about their behaviour.

Machine strings are Lean `String`s; filesystem paths are modelled as Rust
`PathBuf` on a Unix platform: an absoluteness flag plus the list of raw
path components.  Filesystem operations (`canonicalize`,
`copy_dir_recursive`) are oracles passed in explicitly, and the side effects
a run performs are returned as an explicit list.
-/

/-- A filesystem path as Rust `PathBuf` represents it on Unix: an
absoluteness flag plus the list of components.  Components never contain a
separator and empty components are never stored (matching
`Path::components`, which skips empty pieces); `.` and `..` are kept as
literal components, as `Path::components` keeps `ParentDir`. -/
structure FsPath where
  absolute : Bool
  components : List String
deriving DecidableEq, Repr

/-- Rust `Path::join` (and `PathBuf::push`): pushing an absolute path
replaces the receiver, otherwise components are appended. -/
def FsPath.join (p q : FsPath) : FsPath :=
  if q.absolute then q else ⟨p.absolute, p.components ++ q.components⟩

/-- Rust `Path::is_absolute`. -/
def FsPath.isAbsolute (p : FsPath) : Bool := p.absolute

/-- Rust `Path::file_name`: the last component, unless the path has no
components or ends in `..`. -/
def FsPath.fileName (p : FsPath) : Option String :=
  match p.components.getLast? with
  | some c => if c = ".." then none else some c
  | none => none

/-- Rust `Path::starts_with`: whole-component prefix comparison.  No `..`
resolution is performed, exactly as in the Rust standard library. -/
def FsPath.startsWithPath (p base : FsPath) : Bool :=
  p.absolute == base.absolute && base.components.isPrefixOf p.components

/-- Rust `str::split(sep)` on the character list underlying the string:
the (possibly empty) pieces between occurrences of the separator.  The empty
string yields one empty piece, as in Rust. -/
def splitOnChar (sep : Char) : List Char → List (List Char)
  | [] => [[]]
  | c :: rest =>
    if c = sep then [] :: splitOnChar sep rest
    else
      match splitOnChar sep rest with
      | h :: t => (c :: h) :: t
      | [] => [[c]]

/-- The pieces of `s.split('/')`, as strings. -/
def splitSlash (s : String) : List String :=
  (splitOnChar '/' s.data).map (fun cs => String.mk cs)

/-- `PathBuf::new()` followed by `extend(s.split('/'))`: each split piece is
pushed as one relative component, empty pieces push nothing, and no piece
contains a separator, so the result is always relative. -/
def fsPathFromSplit (s : String) : FsPath :=
  ⟨false, (splitSlash s).filter (fun c => c != "")⟩

/-- Rust `Path::new(s)` for a whole string: absolute iff the string begins
with the separator; the components are the nonempty pieces between
separators. -/
def fsPathOfStr (s : String) : FsPath :=
  ⟨s.data.head? == some '/', (splitSlash s).filter (fun c => c != "")⟩

/-- One step of lexical path resolution: `.` is dropped, `..` removes the
last resolved component, and a normal name is appended.  Used only to state
where a filesystem write actually lands once the OS resolves the path. -/
def resolveStep (acc : List String) (c : String) : List String :=
  if c = "." then acc
  else if c = ".." then acc.dropLast
  else acc ++ [c]

/-- Lexically resolve the `.` and `..` components of a path. -/
def FsPath.resolve (p : FsPath) : FsPath :=
  ⟨p.absolute, p.components.foldl resolveStep []⟩

/-- Whether the place `p` really denotes (after resolving `..`) stays inside
the directory `base`. -/
def insideDir (base p : FsPath) : Bool :=
  base.absolute == p.absolute &&
    base.resolve.components.isPrefixOf p.resolve.components

/-- A build directive extracted from the document (`AssetInput`): the
originating element's id, the manifest directory, and the ordered attribute
map. -/
structure AssetInput where
  id : Nat
  manifest_dir : FsPath
  attrs : List (String × String)
deriving DecidableEq, Repr

/-- Lookup in the ordered attribute map (`Attrs::get`): the value of the
first entry carrying the key. -/
def attrsGet (attrs : List (String × String)) (key : String) : Option String :=
  (attrs.find? (fun kv => kv.1 == key)).map (fun kv => kv.2)

/-- The variants of `trunk_util::ErrorReason` this core constructs or
inspects.  `fsCopyFailed` is modelled from the spec: the recursive-copy
primitive is an external collaborator that may fail with an I/O error which
this core propagates. -/
inductive ErrorReason where
  | assetNotMatched (input : AssetInput)
  | pipelineLinkHrefNotFound (rel : String)
  | pipelineLinkDataTargetPathRelativeExpected (path : FsPath)
  | fsNotExist (path : FsPath)
  | pathNoFileStem (path : FsPath)
  | fsCopyFailed (src : FsPath) (dst : FsPath)
  | tokioTaskFailed
deriving DecidableEq, Repr

/-- Rust `str::starts_with(c)` for a single character, on the character
list underlying the string. -/
def startsWithChar (s : String) (c : Char) : Bool := s.data.head? == some c

/-- Rust `str::ends_with(c)` for a single character, on the character list
underlying the string. -/
def endsWithChar (s : String) (c : Char) : Bool := s.data.getLast? == some c

/-- `common::parse_public_url`: ensure the `--public-url` value begins and
ends with a slash.  The Rust error type is `Infallible`, embedded here as
the uninhabited `Empty`. -/
def parse_public_url (val : String) : Except Empty String :=
  let pre := if !startsWithChar val '/' then "/" else ""
  let suf := if !endsWithChar val '/' then "/" else ""
  Except.ok (pre ++ val ++ suf)

theorem startsWithChar_append_left (s t : String) (c : Char)
    (h : startsWithChar s c = true) : startsWithChar (s ++ t) c = true := by
  simp only [startsWithChar, String.data_append, List.head?_append]
  simp only [startsWithChar, beq_iff_eq] at h
  simp [h]

theorem endsWithChar_append_right (s t : String) (c : Char)
    (h : endsWithChar t c = true) : endsWithChar (s ++ t) c = true := by
  simp only [endsWithChar, String.data_append, List.getLast?_append]
  simp only [endsWithChar, beq_iff_eq] at h
  simp [h]

theorem startsWithChar_pre (s t : String) :
    startsWithChar ((if !startsWithChar s '/' then "/" else "") ++ s ++ t)
      '/' = true := by
  cases h : startsWithChar s '/' with
  | false =>
    simp only [h, Bool.not_false, if_true]
    refine startsWithChar_append_left _ _ _ ?_
    refine startsWithChar_append_left _ _ _ ?_
    rfl
  | true =>
    simp only [h, Bool.not_true, Bool.false_eq_true, if_false]
    refine startsWithChar_append_left _ _ _ ?_
    simpa [startsWithChar, String.data_append] using h

theorem endsWithChar_suf (t s : String) :
    endsWithChar (t ++ s ++ (if !endsWithChar s '/' then "/" else ""))
      '/' = true := by
  cases h : endsWithChar s '/' with
  | false =>
    simp only [h, Bool.not_false, if_true]
    refine endsWithChar_append_right _ _ _ ?_
    rfl
  | true =>
    simp only [h, Bool.not_true, Bool.false_eq_true, if_false,
      String.append_empty]
    exact endsWithChar_append_right _ _ _ h

/-- C10: for every string `s`, `parse_public_url s` returns `Ok` (the error
type is uninhabited), the returned string starts with `'/'` and ends with
`'/'`, and the function is idempotent: applied to its own result it returns
that result unchanged. -/
theorem parse_public_url_ok_slash_idempotent (s : String) :
    ∃ r, parse_public_url s = Except.ok r ∧
      startsWithChar r '/' = true ∧ endsWithChar r '/' = true ∧
      parse_public_url r = Except.ok r := by
  refine ⟨(if !startsWithChar s '/' then "/" else "") ++ s ++
      (if !endsWithChar s '/' then "/" else ""), rfl, ?_, ?_, ?_⟩
  · exact startsWithChar_pre s _
  · exact endsWithChar_suf _ s
  · have h1 := startsWithChar_pre s (if !endsWithChar s '/' then "/" else "")
    have h2 := endsWithChar_suf (if !startsWithChar s '/' then "/" else "") s
    simp only [Bool.not_eq_true'] at h1 h2
    simp [parse_public_url, h1, h2]

/-- The output of a chain (`ChainOutput`): a tagged union over the two
chained pipelines' output types; exactly one variant is populated. -/
inductive ChainOutput (α β : Type) where
  | first (o : α)
  | second (o : β)
deriving DecidableEq, Repr

/-- `Chain::run_once`: try the first pipeline; when it fails specifically
with `AssetNotMatched`, retry the second pipeline on the input carried in
that error; propagate any other error untouched.  A pipeline's `run_once` is
embedded as a function from the input to a result. -/
def Chain.run_once (a : AssetInput → Except ErrorReason α)
    (b : AssetInput → Except ErrorReason β) (input : AssetInput) :
    Except ErrorReason (ChainOutput α β) :=
  match a input with
  | Except.ok m => Except.ok (ChainOutput.first m)
  | Except.error e =>
    match e with
    | ErrorReason.assetNotMatched input => (b input).map ChainOutput.second
    | e => Except.error e

/-- `Chain::try_push_input`: the same fallback policy applied to the
stateful claim operation.  Each pipeline's `try_push_input` is embedded in
state-passing style: it takes the pipeline's state and the input and returns
either the new state or an error (in which case the caller's state is
unchanged, as the Rust method returns before mutating on failure). -/
def Chain.try_push_input (pa : σ₁ → AssetInput → Except ErrorReason σ₁)
    (pb : σ₂ → AssetInput → Except ErrorReason σ₂)
    (s : σ₁ × σ₂) (input : AssetInput) : Except ErrorReason (σ₁ × σ₂) :=
  match pa s.1 input with
  | Except.ok m => Except.ok (m, s.2)
  | Except.error e =>
    match e with
    | ErrorReason.assetNotMatched input =>
      (pb s.2 input).map (fun m => (s.1, m))
    | e => Except.error e

/-- `futures_util::stream::select`, specialised to finite streams embedded
as lists: a readiness schedule says which side is polled and ready first at
each step while both streams still have items; once one stream is
exhausted, the remaining items of the other are yielded in order.  The
schedule abstracts the real-time readiness order, which `select` leaves
unspecified. -/
def selectMerge (sched : List Bool) (xs ys : List γ) : List γ :=
  match sched, xs, ys with
  | _, [], ys => ys
  | _, x :: xs, [] => x :: xs
  | [], x :: xs, y :: ys => x :: selectMerge [] xs (y :: ys)
  | true :: s, x :: xs, y :: ys => x :: selectMerge s xs (y :: ys)
  | false :: s, x :: xs, y :: ys => y :: selectMerge s (x :: xs) ys
termination_by xs.length + ys.length

/-- `Chain::outputs`: select-merge the two pipelines' output streams, the
first stream's `Ok` items wrapped in `First` and the second stream's in
`Second` (`map_ok` leaves error items untouched). -/
def Chain.outputs (sched : List Bool)
    (as : List (Except ErrorReason α)) (bs : List (Except ErrorReason β)) :
    List (Except ErrorReason (ChainOutput α β)) :=
  selectMerge sched (as.map (Except.map ChainOutput.first))
    (bs.map (Except.map ChainOutput.second))

/-- `zs` is an order-preserving interleaving of `xs` and `ys`: every item of
each list appears exactly once, in its list's original order; the relative
order between the two lists' items is arbitrary. -/
inductive IsMerge : List γ → List γ → List γ → Prop where
  | nil : IsMerge [] [] []
  | left {x : γ} {xs ys zs : List γ} :
    IsMerge xs ys zs → IsMerge (x :: xs) ys (x :: zs)
  | right {y : γ} {xs ys zs : List γ} :
    IsMerge xs ys zs → IsMerge xs (y :: ys) (y :: zs)

theorem isMerge_left_nil (xs : List γ) : IsMerge xs [] xs := by
  induction xs with
  | nil => exact IsMerge.nil
  | cons x xs ih => exact IsMerge.left ih

theorem isMerge_right_nil (ys : List γ) : IsMerge [] ys ys := by
  induction ys with
  | nil => exact IsMerge.nil
  | cons y ys ih => exact IsMerge.right ih

theorem selectMerge_isMerge (sched : List Bool) (xs ys : List γ) :
    IsMerge xs ys (selectMerge sched xs ys) := by
  induction sched, xs, ys using selectMerge.induct with
  | case1 sched ys => simp only [selectMerge]; exact isMerge_right_nil ys
  | case2 sched x xs =>
    simp only [selectMerge]
    exact isMerge_left_nil (x :: xs)
  | case3 x xs y ys ih => simp only [selectMerge]; exact IsMerge.left ih
  | case4 s x xs y ys ih => simp only [selectMerge]; exact IsMerge.left ih
  | case5 s x xs y ys ih => simp only [selectMerge]; exact IsMerge.right ih

/-- The copy-dir directive kind discriminator (`TYPE_COPY_DIR`). -/
def TYPE_COPY_DIR : String := "copy-dir"

/-- The attribute key carrying the directive kind (`ATTR_REL`). -/
def ATTR_REL : String := "rel"

/-- The attribute key carrying the source path (`ATTR_HREF`). -/
def ATTR_HREF : String := "href"

/-- The copy-dir pipeline's typed view of an `AssetInput` (`Input`):
the original input, the resolved source path and the optional target path. -/
structure Input where
  asset_input : AssetInput
  path : FsPath
  target_path : Option FsPath
deriving DecidableEq, Repr

/-- `impl TryFrom<AssetInput> for Input`: reject with `AssetNotMatched`
(carrying the input back) unless the `rel` attribute equals `copy-dir`; then
require the `href` attribute, build the source path from its
slash-separated pieces, resolving against `manifest_dir` when not absolute;
read the optional `data-target-path` attribute verbatim. -/
def Input.try_from (value : AssetInput) : Except ErrorReason Input :=
  if attrsGet value.attrs ATTR_REL ≠ some TYPE_COPY_DIR then
    Except.error (ErrorReason.assetNotMatched value)
  else
    match attrsGet value.attrs ATTR_HREF with
    | none => Except.error (ErrorReason.pipelineLinkHrefNotFound TYPE_COPY_DIR)
    | some href_attr =>
      let path0 := fsPathFromSplit href_attr
      let path :=
        if !path0.isAbsolute then value.manifest_dir.join path0 else path0
      let target_path := (attrsGet value.attrs "data-target-path").map fsPathOfStr
      Except.ok ⟨value, path, target_path⟩

/-- The output of the copy-dir pipeline (`CopyDirOutput`): the originating
directive's id (the single positional field of the Rust tuple struct). -/
structure CopyDirOutput where
  id : Nat
deriving DecidableEq, Repr

/-- A filesystem side effect performed by a run: one invocation of the
external `copy_dir_recursive` primitive with its source and destination. -/
inductive FsEffect where
  | copyDirRecursive (src : FsPath) (dst : FsPath)
deriving DecidableEq, Repr

/-- The filesystem oracle a run consults: the result of `fs::canonicalize`
(`none` embeds the error case) and whether a `copy_dir_recursive` call with
the given source and destination succeeds. -/
structure FsOracle where
  canonicalize : FsPath → Option FsPath
  copyOk : FsPath → FsPath → Bool

/-- `CopyDir::run_with_input`: canonicalize the source path (error
`FsNotExist` on failure), take its file name (error `PathNoFileStem` when
there is none), use the target path when present and the file name
otherwise as the destination name, join it onto the output directory,
reject when the joined destination does not `starts_with` the output
directory, and otherwise invoke the recursive copy.  The returned list
records the filesystem writes performed. -/
def CopyDir.run_with_input (output_dir : FsPath) (fs : FsOracle)
    (input : Input) : Except ErrorReason CopyDirOutput × List FsEffect :=
  match fs.canonicalize input.path with
  | none => (Except.error (ErrorReason.fsNotExist input.path), [])
  | some canonical_path =>
    match canonical_path.fileName with
    | none => (Except.error (ErrorReason.pathNoFileStem canonical_path), [])
    | some dir_name =>
      let out_rel_path := input.target_path.getD ⟨false, [dir_name]⟩
      let dir_out := output_dir.join out_rel_path
      if !(dir_out.startsWithPath output_dir) then
        (Except.error
          (ErrorReason.pipelineLinkDataTargetPathRelativeExpected out_rel_path),
          [])
      else if fs.copyOk canonical_path dir_out then
        (Except.ok ⟨input.asset_input.id⟩,
          [FsEffect.copyDirRecursive canonical_path dir_out])
      else
        (Except.error (ErrorReason.fsCopyFailed canonical_path dir_out),
          [FsEffect.copyDirRecursive canonical_path dir_out])

/-- `CopyDir::try_push_input`: validate the input and append the converted
form to the queue; on failure the queue is returned untouched together with
the error (the Rust method returns before pushing).  No filesystem oracle is
consulted: queuing performs no I/O. -/
def CopyDir.try_push_input (inputs : List Input) (input : AssetInput) :
    List Input × Option ErrorReason :=
  match Input.try_from input with
  | Except.error e => (inputs, some e)
  | Except.ok i => (inputs ++ [i], none)

/-- `CopyDir::run_once`: validate the input and run it immediately. -/
def CopyDir.run_once (output_dir : FsPath) (fs : FsOracle)
    (input : AssetInput) : Except ErrorReason CopyDirOutput × List FsEffect :=
  match Input.try_from input with
  | Except.error e => (Except.error e, [])
  | Except.ok i => CopyDir.run_with_input output_dir fs i

/-- Helper for `CopyDir::outputs`: run the queued inputs in order, the
`k`-th spawned task either running to completion (then its `run_with_input`
result is yielded) or failing as a task (then the `TokioTaskFailed` error is
yielded), as `taskOk` says.  `k` is the index of the first remaining
input. -/
def CopyDir.outputsFrom (output_dir : FsPath) (fs : FsOracle)
    (taskOk : Nat → Bool) : Nat → List Input →
    List (Except ErrorReason CopyDirOutput)
  | _, [] => []
  | k, input :: rest =>
    (if taskOk k then (CopyDir.run_with_input output_dir fs input).1
     else Except.error ErrorReason.tokioTaskFailed) ::
      CopyDir.outputsFrom output_dir fs taskOk (k + 1) rest

/-- `CopyDir::outputs`: one result per queued input, collected in submission
order; a spawned task that fails to run to completion is converted into the
`TokioTaskFailed` error. -/
def CopyDir.outputs (output_dir : FsPath) (fs : FsOracle)
    (taskOk : Nat → Bool) (inputs : List Input) :
    List (Except ErrorReason CopyDirOutput) :=
  CopyDir.outputsFrom output_dir fs taskOk 0 inputs

/-- Modelled from the spec: an element of the externally owned document
(`nipper::Document` is an external collaborator and `trunk_id_selector`
lives outside these sources).  An element carries the trunk id the selector
matches on, when it has one, and an abstract payload standing for all its
other content. -/
structure Element where
  trunkId : Option Nat
  payload : Nat
deriving DecidableEq, Repr

/-- Modelled from the spec: the document is the sequence of its elements,
and `dom.select(trunk_id_selector(k)).remove()` removes exactly the
elements whose trunk id equals `k`, keeping all others in order. -/
def removeTrunkId (k : Nat) (dom : List Element) : List Element :=
  dom.filter (fun el => el.trunkId != some k)

/-- `CopyDirOutput::finalize`: remove the elements matched by the trunk-id
selector for the output's id and report success. -/
def CopyDirOutput.finalize (o : CopyDirOutput) (dom : List Element) :
    List Element × Except ErrorReason Unit :=
  (removeTrunkId o.id dom, Except.ok ())

/-- `ChainOutput::finalize`: delegate to whichever variant is held; the two
component finalizers are passed explicitly, as the embedding of the two
`Output` implementations. -/
def ChainOutput.finalize
    (fa : α → List Element → List Element × Except ErrorReason Unit)
    (fb : β → List Element → List Element × Except ErrorReason Unit) :
    ChainOutput α β → List Element → List Element × Except ErrorReason Unit
  | ChainOutput.first l, dom => fa l dom
  | ChainOutput.second r, dom => fb r dom

theorem isMerge_length {xs ys zs : List γ} (h : IsMerge xs ys zs) :
    zs.length = xs.length + ys.length := by
  induction h with
  | nil => rfl
  | left _ ih => simp [ih]; omega
  | right _ ih => simp [ih]; omega

/-- C1: the path-escape check of `CopyDir::run_with_input` does not reject a
relative `data-target-path` containing `..`, because `Path::starts_with`
compares raw components without resolving `..`.  With output directory
`/dist` and a directive whose `data-target-path` is `../escape`, the run
succeeds and performs a recursive copy whose destination `/dist/../escape`
resolves to `/escape`, outside the output directory — instead of failing
with the path-escape error and writing nothing. -/
theorem copyDir_dotdot_target_path_escapes_output_dir :
    CopyDir.run_once ⟨true, ["dist"]⟩
        ⟨fun p => if p = ⟨true, ["proj", "assets"]⟩ then
            some ⟨true, ["proj", "assets"]⟩ else none,
          fun _ _ => true⟩
        ⟨7, ⟨true, ["proj"]⟩,
          [("rel", "copy-dir"), ("href", "assets"),
            ("data-target-path", "../escape")]⟩ =
      (Except.ok ⟨7⟩,
        [FsEffect.copyDirRecursive ⟨true, ["proj", "assets"]⟩
          ⟨true, ["dist", "..", "escape"]⟩]) ∧
    FsPath.resolve ⟨true, ["dist", "..", "escape"]⟩ = ⟨true, ["escape"]⟩ ∧
    insideDir ⟨true, ["dist"]⟩ ⟨true, ["dist", "..", "escape"]⟩ = false := by
  refine ⟨rfl, by decide, by decide⟩

/-- C2: `Chain::run_once` returns `First x` exactly when the first pipeline
returns `x`; when the first pipeline fails with `AssetNotMatched` carrying
`i2`, the result is the second pipeline's `run_once` on `i2`, its success
wrapped as `Second`; and when the first pipeline fails with any other error
that error is returned verbatim, whatever the second pipeline is (so the
second pipeline is never consulted). -/
theorem chain_run_once_first_fallback_semantics
    (a : AssetInput → Except ErrorReason α)
    (b : AssetInput → Except ErrorReason β) (i : AssetInput) :
    (∀ x, Chain.run_once a b i = Except.ok (ChainOutput.first x) ↔
      a i = Except.ok x) ∧
    (∀ i2, a i = Except.error (ErrorReason.assetNotMatched i2) →
      Chain.run_once a b i = (b i2).map ChainOutput.second) ∧
    (∀ e, a i = Except.error e →
      (∀ i2, e ≠ ErrorReason.assetNotMatched i2) →
      ∀ b2 : AssetInput → Except ErrorReason β,
        Chain.run_once a b2 i = Except.error e) := by
  refine ⟨?_, ?_, ?_⟩
  · intro x
    unfold Chain.run_once
    cases ha : a i with
    | ok m => simp
    | error e =>
      cases e with
      | assetNotMatched i2 =>
        cases hb : b i2 with
        | ok y => simp [hb, Except.map]
        | error e2 => simp [hb, Except.map]
      | pipelineLinkHrefNotFound rel => simp
      | pipelineLinkDataTargetPathRelativeExpected p => simp
      | fsNotExist p => simp
      | pathNoFileStem p => simp
      | fsCopyFailed p q => simp
      | tokioTaskFailed => simp
  · intro i2 ha
    unfold Chain.run_once
    rw [ha]
  · intro e ha hne b2
    unfold Chain.run_once
    rw [ha]
    cases e with
    | assetNotMatched i2 => exact absurd rfl (hne i2)
    | pipelineLinkHrefNotFound rel => rfl
    | pipelineLinkDataTargetPathRelativeExpected p => rfl
    | fsNotExist p => rfl
    | pathNoFileStem p => rfl
    | fsCopyFailed p q => rfl
    | tokioTaskFailed => rfl

/-- Witness for C2: a chain whose first pipeline rejects everything and
whose second returns `5` falls back and wraps the result as `Second`. -/
theorem chain_run_once_first_fallback_semantics_witness :
    Chain.run_once
      (fun i => (Except.error (ErrorReason.assetNotMatched i) :
        Except ErrorReason Nat))
      (fun _ => (Except.ok 5 : Except ErrorReason Nat)) ⟨0, ⟨false, []⟩, []⟩ =
      Except.ok (ChainOutput.second 5) :=
  ((chain_run_once_first_fallback_semantics
    (fun i => (Except.error (ErrorReason.assetNotMatched i) :
      Except ErrorReason Nat))
    (fun _ => Except.ok (5 : Nat)) ⟨0, ⟨false, []⟩, []⟩).2.1 _ rfl).trans rfl

/-- C3: when both chained pipelines reject an input with the not-matched
signal carrying that input back unchanged, `Chain::run_once` and
`Chain::try_push_input` fail with `AssetNotMatched` carrying the original
input unchanged; and the copy-dir conversion, the concrete rejecting
pipeline of this core, does return the input unmodified inside its
not-matched error. -/
theorem chain_double_reject_carries_original_input
    (a : AssetInput → Except ErrorReason α)
    (b : AssetInput → Except ErrorReason β)
    (pa : σ₁ → AssetInput → Except ErrorReason σ₁)
    (pb : σ₂ → AssetInput → Except ErrorReason σ₂)
    (i : AssetInput) (s : σ₁ × σ₂) :
    (a i = Except.error (ErrorReason.assetNotMatched i) →
      b i = Except.error (ErrorReason.assetNotMatched i) →
      Chain.run_once a b i = Except.error (ErrorReason.assetNotMatched i)) ∧
    (pa s.1 i = Except.error (ErrorReason.assetNotMatched i) →
      pb s.2 i = Except.error (ErrorReason.assetNotMatched i) →
      Chain.try_push_input pa pb s i =
        Except.error (ErrorReason.assetNotMatched i)) ∧
    (attrsGet i.attrs ATTR_REL ≠ some TYPE_COPY_DIR →
      Input.try_from i = Except.error (ErrorReason.assetNotMatched i)) := by
  refine ⟨?_, ?_, ?_⟩
  · intro ha hb
    simp [Chain.run_once, ha, hb, Except.map]
  · intro ha hb
    simp [Chain.try_push_input, ha, hb, Except.map]
  · intro hrel
    unfold Input.try_from
    rw [if_pos hrel]

/-- Witness for C3: two always-rejecting pipelines at a concrete input, and
the copy-dir conversion at an input whose `rel` attribute is not
`copy-dir`. -/
theorem chain_double_reject_carries_original_input_witness :
    Chain.run_once
      (fun i => (Except.error (ErrorReason.assetNotMatched i) :
        Except ErrorReason Nat))
      (fun i => (Except.error (ErrorReason.assetNotMatched i) :
        Except ErrorReason Nat)) ⟨2, ⟨false, []⟩, [("rel", "css")]⟩ =
      Except.error (ErrorReason.assetNotMatched
        ⟨2, ⟨false, []⟩, [("rel", "css")]⟩) ∧
    Input.try_from ⟨2, ⟨false, []⟩, [("rel", "css")]⟩ =
      Except.error (ErrorReason.assetNotMatched
        ⟨2, ⟨false, []⟩, [("rel", "css")]⟩) := by
  have h := chain_double_reject_carries_original_input
    (fun i => (Except.error (ErrorReason.assetNotMatched i) :
      Except ErrorReason Nat))
    (fun i => (Except.error (ErrorReason.assetNotMatched i) :
      Except ErrorReason Nat))
    (fun (s : Unit) _ => Except.ok s) (fun (s : Unit) _ => Except.ok s)
    ⟨2, ⟨false, []⟩, [("rel", "css")]⟩ ((), ())
  exact ⟨h.1 rfl rfl, h.2.2 (by decide)⟩

/-- C4: the copy-dir conversion fails with `AssetNotMatched` exactly when
the `rel` attribute differs from `copy-dir`, carrying the input back
unchanged; with a matching `rel` and no `href` it fails with the
missing-attribute error naming `copy-dir`; otherwise it succeeds with the
source path built from the slash-split `href` (joined onto `manifest_dir`
when not absolute) and the `data-target-path` attribute stored verbatim.
The conversion is a pure total function: it takes no filesystem oracle, so
it can perform no filesystem access. -/
theorem input_try_from_match_and_validation (v : AssetInput) :
    ((∃ i, Input.try_from v = Except.error (ErrorReason.assetNotMatched i)) ↔
      attrsGet v.attrs ATTR_REL ≠ some TYPE_COPY_DIR) ∧
    (attrsGet v.attrs ATTR_REL ≠ some TYPE_COPY_DIR →
      Input.try_from v = Except.error (ErrorReason.assetNotMatched v)) ∧
    (attrsGet v.attrs ATTR_REL = some TYPE_COPY_DIR →
      attrsGet v.attrs ATTR_HREF = none →
      Input.try_from v =
        Except.error (ErrorReason.pipelineLinkHrefNotFound TYPE_COPY_DIR)) ∧
    (∀ h, attrsGet v.attrs ATTR_REL = some TYPE_COPY_DIR →
      attrsGet v.attrs ATTR_HREF = some h →
      Input.try_from v = Except.ok ⟨v,
        (if !(fsPathFromSplit h).isAbsolute then
          v.manifest_dir.join (fsPathFromSplit h) else fsPathFromSplit h),
        (attrsGet v.attrs "data-target-path").map fsPathOfStr⟩) := by
  unfold Input.try_from
  by_cases hrel : attrsGet v.attrs ATTR_REL = some TYPE_COPY_DIR <;>
    cases hhref : attrsGet v.attrs ATTR_HREF <;>
      simp [hrel, hhref]

/-- Witness for C4: a concrete matching directive converts to the resolved
source path and no target path. -/
theorem input_try_from_match_and_validation_witness :
    Input.try_from ⟨1, ⟨true, ["proj"]⟩,
        [("rel", "copy-dir"), ("href", "assets/data")]⟩ =
      Except.ok ⟨⟨1, ⟨true, ["proj"]⟩,
        [("rel", "copy-dir"), ("href", "assets/data")]⟩,
        ⟨true, ["proj", "assets", "data"]⟩, none⟩ := by
  have h := (input_try_from_match_and_validation
    ⟨1, ⟨true, ["proj"]⟩, [("rel", "copy-dir"), ("href", "assets/data")]⟩).2.2.2
    "assets/data" rfl rfl
  exact h.trans rfl

/-- C5: `CopyDir::try_push_input` leaves the queue unchanged and reports the
conversion's error when validation fails, and appends exactly the converted
input at the end of the queue when it succeeds.  The operation takes no
filesystem oracle, so it performs no filesystem I/O in either case. -/
theorem copyDir_try_push_input_queue_effect (inputs : List Input)
    (v : AssetInput) :
    (∀ e, Input.try_from v = Except.error e →
      CopyDir.try_push_input inputs v = (inputs, some e)) ∧
    (∀ i, Input.try_from v = Except.ok i →
      CopyDir.try_push_input inputs v = (inputs ++ [i], none)) := by
  constructor
  · intro e he
    simp [CopyDir.try_push_input, he]
  · intro i hi
    simp [CopyDir.try_push_input, hi]

/-- Witness for C5: pushing a non-matching directive onto an empty queue
leaves it empty and reports the not-matched error. -/
theorem copyDir_try_push_input_queue_effect_witness :
    CopyDir.try_push_input [] ⟨2, ⟨false, []⟩, [("rel", "css")]⟩ =
      ([], some (ErrorReason.assetNotMatched
        ⟨2, ⟨false, []⟩, [("rel", "css")]⟩)) :=
  (copyDir_try_push_input_queue_effect []
    ⟨2, ⟨false, []⟩, [("rel", "css")]⟩).1 _ rfl

theorem copyDir_run_with_input_ok_id (od : FsPath) (fs : FsOracle)
    (i : Input) (o : CopyDirOutput)
    (h : (CopyDir.run_with_input od fs i).1 = Except.ok o) :
    o.id = i.asset_input.id := by
  unfold CopyDir.run_with_input at h
  cases hc : fs.canonicalize i.path with
  | none =>
    simp only [hc] at h
    simp at h
  | some cp =>
    simp only [hc] at h
    cases hf : cp.fileName with
    | none =>
      simp only [hf] at h
      simp at h
    | some dn =>
      simp only [hf] at h
      split at h
      · simp at h
      · split at h
        · simp only [] at h
          injection h with h2
          rw [← h2]
        · simp at h

theorem copyDir_outputsFrom_length (od : FsPath) (fs : FsOracle)
    (taskOk : Nat → Bool) :
    ∀ (k : Nat) (inputs : List Input),
      (CopyDir.outputsFrom od fs taskOk k inputs).length = inputs.length := by
  intro k inputs
  induction inputs generalizing k with
  | nil => rfl
  | cons a rest ih => simp [CopyDir.outputsFrom, ih]

theorem copyDir_outputsFrom_getElem (od : FsPath) (fs : FsOracle)
    (taskOk : Nat → Bool) (inputs : List Input) :
    ∀ (k j : Nat), (CopyDir.outputsFrom od fs taskOk k inputs)[j]? =
      (inputs[j]?).map (fun input =>
        if taskOk (k + j) then (CopyDir.run_with_input od fs input).1
        else Except.error ErrorReason.tokioTaskFailed) := by
  induction inputs with
  | nil =>
    intro k j
    simp [CopyDir.outputsFrom]
  | cons a rest ih =>
    intro k j
    cases j with
    | zero => simp [CopyDir.outputsFrom]
    | succ j =>
      simp only [CopyDir.outputsFrom, List.getElem?_cons_succ]
      rw [ih (k + 1) j]
      have harith : k + 1 + j = k + (j + 1) := by omega
      rw [harith]

/-- C6: draining `CopyDir::outputs` yields exactly one result per queued
input, in submission order: the `k`-th result is the `k`-th input's
`run_with_input` result when its spawned task ran to completion and the
distinct `TokioTaskFailed` error otherwise, and a successful `k`-th result
carries the `k`-th input's directive id. -/
theorem copyDir_outputs_submission_order (od : FsPath) (fs : FsOracle)
    (taskOk : Nat → Bool) (inputs : List Input) :
    (CopyDir.outputs od fs taskOk inputs).length = inputs.length ∧
    (∀ k : Nat, (CopyDir.outputs od fs taskOk inputs)[k]? =
      (inputs[k]?).map (fun input =>
        if taskOk k then (CopyDir.run_with_input od fs input).1
        else Except.error ErrorReason.tokioTaskFailed)) ∧
    (∀ (k : Nat) (o : CopyDirOutput),
      (CopyDir.outputs od fs taskOk inputs)[k]? =
        some (Except.ok o) →
      (inputs[k]?).map (fun input => input.asset_input.id) = some o.id) := by
  refine ⟨copyDir_outputsFrom_length od fs taskOk 0 inputs, ?_, ?_⟩
  · intro k
    simpa using copyDir_outputsFrom_getElem od fs taskOk inputs 0 k
  · intro k o h
    unfold CopyDir.outputs at h
    rw [copyDir_outputsFrom_getElem od fs taskOk inputs 0 k] at h
    cases hi : inputs[k]? with
    | none => rw [hi] at h; simp at h
    | some inp =>
      rw [hi] at h
      simp only [Option.map_some'] at h
      injection h with h2
      by_cases ht : taskOk (0 + k) = true
      · rw [if_pos ht] at h2
        rw [copyDir_run_with_input_ok_id od fs inp o h2]
        simp
      · rw [if_neg ht] at h2
        simp at h2

/-- Witness for C6: two queued inputs against an oracle where every source
fails to canonicalize and only the first task completes yield exactly two
results. -/
theorem copyDir_outputs_submission_order_witness :
    (CopyDir.outputs ⟨true, ["dist"]⟩ ⟨fun _ => none, fun _ _ => true⟩
      (fun k => k == 0)
      [⟨⟨1, ⟨false, []⟩, []⟩, ⟨false, ["a"]⟩, none⟩,
        ⟨⟨2, ⟨false, []⟩, []⟩, ⟨false, ["b"]⟩, none⟩]).length = 2 :=
  (copyDir_outputs_submission_order ⟨true, ["dist"]⟩
    ⟨fun _ => none, fun _ _ => true⟩ (fun k => k == 0)
    [⟨⟨1, ⟨false, []⟩, []⟩, ⟨false, ["a"]⟩, none⟩,
      ⟨⟨2, ⟨false, []⟩, []⟩, ⟨false, ["b"]⟩, none⟩]).1

/-- C7: `CopyDir::run_with_input` fails with the path-does-not-exist error
exactly when canonicalizing the source fails; after a successful
canonicalization it fails with the no-file-stem error exactly when the
canonical path has no final segment; every recursive copy it performs goes
from the canonical source to the output directory joined with the
target-path attribute when present and with the canonical path's final
segment otherwise; and a success carries the originating directive's id. -/
theorem copyDir_run_with_input_error_cases (od : FsPath) (fs : FsOracle)
    (i : Input) :
    ((CopyDir.run_with_input od fs i).1 =
        Except.error (ErrorReason.fsNotExist i.path) ↔
      fs.canonicalize i.path = none) ∧
    (∀ cp, fs.canonicalize i.path = some cp →
      ((CopyDir.run_with_input od fs i).1 =
          Except.error (ErrorReason.pathNoFileStem cp) ↔
        cp.fileName = none)) ∧
    (∀ cp seg, fs.canonicalize i.path = some cp → cp.fileName = some seg →
      ∀ src dst, FsEffect.copyDirRecursive src dst ∈
          (CopyDir.run_with_input od fs i).2 →
        src = cp ∧ dst = od.join (i.target_path.getD ⟨false, [seg]⟩)) ∧
    (∀ o, (CopyDir.run_with_input od fs i).1 = Except.ok o →
      o.id = i.asset_input.id) := by
  refine ⟨?_, ?_, ?_, fun o h => copyDir_run_with_input_ok_id od fs i o h⟩
  · cases hc : fs.canonicalize i.path with
    | none => simp [CopyDir.run_with_input, hc]
    | some cp =>
      simp only [CopyDir.run_with_input, hc]
      cases hf : cp.fileName with
      | none => simp
      | some dn =>
        simp only [hf]
        split
        · simp
        · split <;> simp
  · intro cp hc
    simp only [CopyDir.run_with_input, hc]
    cases hf : cp.fileName with
    | none => simp
    | some dn =>
      simp only [hf]
      split
      · simp
      · split <;> simp
  · intro cp seg hc hf src dst hmem
    simp only [CopyDir.run_with_input, hc, hf] at hmem
    split at hmem
    · simp at hmem
    · split at hmem <;>
        simp only [List.mem_singleton] at hmem <;>
        injection hmem with h1 h2 <;>
        exact ⟨h1, h2⟩

/-- Witness for C7: a concrete input whose source fails to canonicalize is
rejected with the path-does-not-exist error. -/
theorem copyDir_run_with_input_error_cases_witness :
    (CopyDir.run_with_input ⟨true, ["dist"]⟩ ⟨fun _ => none, fun _ _ => true⟩
        ⟨⟨1, ⟨false, []⟩, []⟩, ⟨false, ["a"]⟩, none⟩).1 =
      Except.error (ErrorReason.fsNotExist ⟨false, ["a"]⟩) :=
  ((copyDir_run_with_input_error_cases ⟨true, ["dist"]⟩
    ⟨fun _ => none, fun _ _ => true⟩
    ⟨⟨1, ⟨false, []⟩, []⟩, ⟨false, ["a"]⟩, none⟩).1).mpr rfl

/-- C8: `CopyDirOutput::finalize` removes exactly the document elements
whose trunk id matches the output's id, keeps every other element unchanged
and in order (the result is a sublist of the document), inserts nothing,
and always returns success — also when no element matches; and
`ChainOutput::finalize` is a pure delegation to whichever variant is
held. -/
theorem finalize_removes_matched_elements
    (fa : α → List Element → List Element × Except ErrorReason Unit)
    (fb : β → List Element → List Element × Except ErrorReason Unit)
    (l : α) (r : β) (k : Nat) (dom : List Element) :
    (CopyDirOutput.finalize ⟨k⟩ dom).2 = Except.ok () ∧
    List.Sublist (CopyDirOutput.finalize ⟨k⟩ dom).1 dom ∧
    (∀ el, el ∈ (CopyDirOutput.finalize ⟨k⟩ dom).1 ↔
      el ∈ dom ∧ ¬ el.trunkId = some k) ∧
    (CopyDirOutput.finalize ⟨k⟩ dom).1 =
      dom.filter (fun el => el.trunkId != some k) ∧
    ChainOutput.finalize fa fb (ChainOutput.first l) dom = fa l dom ∧
    ChainOutput.finalize fa fb (ChainOutput.second r) dom = fb r dom := by
  refine ⟨rfl, ?_, ?_, rfl, rfl, rfl⟩
  · exact List.filter_sublist _
  · intro el
    simp [CopyDirOutput.finalize, removeTrunkId, List.mem_filter]

/-- Witness for C8: finalizing an output with id `1` removes the matching
element and keeps the others, reporting success. -/
theorem finalize_removes_matched_elements_witness :
    CopyDirOutput.finalize ⟨1⟩ [⟨some 1, 10⟩, ⟨some 2, 20⟩, ⟨none, 30⟩] =
      ([⟨some 2, 20⟩, ⟨none, 30⟩], Except.ok ()) := by
  have h := (finalize_removes_matched_elements
    (fun (_ : Unit) dom => (dom, Except.ok ()))
    (fun (_ : Unit) dom => (dom, Except.ok ())) () () 1
    [⟨some 1, 10⟩, ⟨some 2, 20⟩, ⟨none, 30⟩]).2.2.2.1
  exact Prod.ext (h.trans (by decide)) rfl

/-- C9: `Chain::outputs` merges the two output streams: for every readiness
schedule, the merged stream is an order-preserving interleaving of the
first stream's items tagged `First` and the second stream's items tagged
`Second` — each item appears exactly once, each branch's own emission order
is preserved, and the relative interleaving is determined only by the
schedule, which `select` leaves unspecified.  In particular the merged
length is the sum of the two lengths. -/
theorem chain_outputs_merges_both_streams (sched : List Bool)
    (as : List (Except ErrorReason α)) (bs : List (Except ErrorReason β)) :
    IsMerge (as.map (Except.map ChainOutput.first))
      (bs.map (Except.map ChainOutput.second))
      (Chain.outputs sched as bs) ∧
    (Chain.outputs sched as bs).length = as.length + bs.length := by
  refine ⟨selectMerge_isMerge _ _ _, ?_⟩
  have h := isMerge_length (selectMerge_isMerge sched
    (as.map (Except.map ChainOutput.first))
    (bs.map (Except.map ChainOutput.second)))
  simpa [Chain.outputs] using h
